import Mathlib

/-!
# Shallow embedding of `go-estar/base-error`

This file embeds the Go package `baseError` (files `src/baseError.go`, current
revision, and `src/unnamed/part_000`, an earlier revision of the same package)
into Lean 4 and proves the frozen claims about it.

Modelling conventions:
* A Go `error` interface value is `GoErr`: `nil`, a `*baseError.Error`
  (constructor `base`, carrying the fields the package inspects through the
  interface), or some other error type (`other`).
* The struct `baseError.Error` is `BError`; a `*Error` that may be nil is
  `Option BError`.
* `fmt.Sprintf` is modelled by `sprintf` for the verbs the package uses
  (`%s`, `%d`, `%%`); the exact text of Go's misuse diagnostics
  (missing/extra/badly typed arguments) is abbreviated to short markers,
  their presence and position being faithful.
* The live call stack read by `runtime.Caller` / `runtime.Callers` is an
  explicit parameter: a `Runtime` bundles the process's `sourceDir` and the
  stack frames in the `runtime.Caller` numbering as seen from inside
  `callers` (`runtime.Callers(s, …)` starts one Caller-level lower, at the
  frame `runtime.Caller(s-1)` examined).
* A Go panic arising from calling a method on a nil `reflect.Type` is
  modelled by `none` in an `Option` result.
-/

/-- A Go value passed as a variadic `any` argument to `fmt.Sprintf`. -/
inductive GoVal : Type where
  | int (n : Int)
  | str (s : String)
deriving DecidableEq

/-- A Go `error` interface value: nil, a `*baseError.Error`, or any other
error implementation (carrying only its rendered message). The `base`
constructor carries the fields of `baseError.Error` that the package reads
through the interface; the stack pointer of a wrapped `*Error` is never
inspected by any modelled operation and is omitted here. -/
inductive GoErr : Type where
  | nil : GoErr
  | base (code msg : String) (system : Bool) (chain : List String) (cause : GoErr) : GoErr
  | other (msg : String) : GoErr
deriving DecidableEq

/-- `reflect.TypeOf(err).String()`: `none` models the panic that calling
`String()` on the nil `reflect.Type` of a nil interface raises. -/
def reflectTypeString : GoErr → Option String
  | .nil => none
  | .base _ _ _ _ _ => some "*baseError.Error"
  | .other _ => some "*errors.errorString"

/-- `func IsBaseError(err error) bool` (src/baseError.go:31). `none` = panic. -/
def IsBaseError (err : GoErr) : Option Bool :=
  (reflectTypeString err).map (· == "*baseError.Error")

/-- The `System` field read by the type assertion `err.(*Error).System`. -/
def GoErr.systemFlag : GoErr → Bool
  | .base _ _ s _ _ => s
  | _ => false

/-- `func IsSystemError(err error) bool` (src/baseError.go:35). `none` = panic.
The `&&` short-circuits, so the type assertion only runs after the type check. -/
def IsSystemError (err : GoErr) : Option Bool :=
  (reflectTypeString err).map (fun t => t == "*baseError.Error" && err.systemFlag)

/-- `func IsNotSystemError(err error) bool` (src/baseError.go:39). `none` = panic. -/
def IsNotSystemError (err : GoErr) : Option Bool :=
  (reflectTypeString err).map (fun t => t == "*baseError.Error" && !err.systemFlag)

/-- `%d` formatting of one argument, as `fmt.Sprintf` renders it. -/
def fmtD : GoVal → String
  | .int n => toString n
  | .str s => "%!d(string=" ++ s ++ ")"

/-- `%s` formatting of one argument, as `fmt.Sprintf` renders it. -/
def fmtS : GoVal → String
  | .str s => s
  | .int n => "%!s(int=" ++ toString n ++ ")"

/-- Core of the `fmt.Sprintf` model, over the format's characters. Verbs the
package uses (`%d`, `%s`, `%%`) are exact; Go's diagnostics for misuse are
abbreviated to fixed markers in the positions Go would emit them. -/
def sprintfGo : List Char → List GoVal → String
  | [], [] => ""
  | [], _ :: _ => "%!(EXTRA)"
  | '%' :: '%' :: rest, args => "%" ++ sprintfGo rest args
  | '%' :: 'd' :: rest, [] => "%!d(MISSING)" ++ sprintfGo rest []
  | '%' :: 'd' :: rest, a :: args => fmtD a ++ sprintfGo rest args
  | '%' :: 's' :: rest, [] => "%!s(MISSING)" ++ sprintfGo rest []
  | '%' :: 's' :: rest, a :: args => fmtS a ++ sprintfGo rest args
  | ['%'], _ => "%!(NOVERB)"
  | '%' :: c :: rest, [] => "%!" ++ String.singleton c ++ "(MISSING)" ++ sprintfGo rest []
  | '%' :: c :: rest, _ :: args => "%!" ++ String.singleton c ++ "(BADVERB)" ++ sprintfGo rest args
  | c :: rest, args => String.singleton c ++ sprintfGo rest args

/-- `fmt.Sprintf(format, args...)` for this package's use of it. -/
def sprintf (format : String) (args : List GoVal) : String :=
  sprintfGo format.toList args

/-- One captured stack frame: the file `runtime.Caller` reports and the
program counter `runtime.Callers` stores. -/
structure Frame : Type where
  file : String
  pc : Nat
deriving DecidableEq

/-- The process state the stack-capture code reads: the canonical library
root `sourceDir` computed at init, and the live call stack in the
`runtime.Caller` numbering as seen from inside `callers`: `frames[i]` is
what `runtime.Caller(i)` reports there (index 0 being the `callers` frame
itself). `runtime.Callers(s, …)` numbers differently — it starts recording
at the frame `runtime.Caller(s-1)` examined. -/
structure Runtime : Type where
  sourceDir : String
  frames : List Frame

/-- `strings.HasPrefix(s, pre)`. -/
def goStartsWith (s pre : String) : Bool :=
  pre.toList.isPrefixOf s.toList

/-- `strings.HasSuffix(s, suf)`. -/
def goEndsWith (s suf : String) : Bool :=
  suf.toList.reverse.isPrefixOf s.toList.reverse

/-- The classifier test inside `callers` (src/baseError.go:328): a frame is a
caller frame when its file does not live under `sourceDir`, or is a Go test
file. -/
def frameOk (sd : String) (f : Frame) : Bool :=
  !(goStartsWith f.file sd) || goEndsWith f.file "_test.go"

/-- Whether the scan at index `i` breaks the loop: `runtime.Caller(i)` must
succeed (`ok`) and the frame must satisfy `frameOk`. -/
def okAt (sd : String) (frames : List Frame) (i : Nat) : Bool :=
  match frames.get? i with
  | some f => frameOk sd f
  | none => false

/-- Body of the scan loop of `callers`: `fuel` counts the iterations left
before `i` reaches the bound 15. Returns `some (i+1)` on the first index
whose frame exists and satisfies `frameOk`, else `none`. -/
def scanGo (sd : String) (frames : List Frame) : Nat → Nat → Option Nat
  | 0, _ => none
  | fuel + 1, i => if okAt sd frames i then some (i + 1) else scanGo sd frames fuel (i + 1)

/-- The scan loop `for i := skip; i < 15; i++` of `callers`
(src/baseError.go:326), entered at index `i`: the loop runs while `i < 15`,
so it has `15 - i` iterations left. -/
def scanLoop (sd : String) (frames : List Frame) (i : Nat) : Option Nat :=
  scanGo sd frames (15 - i) i

/-- The skip value `s` that `callers` ends up passing to `runtime.Callers`:
the loop's `i + 1` on a break, the initial `skip` when the loop finishes
without breaking. -/
def callersSkip (sd : String) (frames : List Frame) (skip : Nat) : Nat :=
  (scanLoop sd frames skip).getD skip

/-- `func callers(skip int, depth int) *stack` (src/baseError.go:324): scan
with `runtime.Caller` for the boundary, then `runtime.Callers(s, pcs)`
collects up to `depth` program counters. `Callers(s, …)` starts recording at
the frame `Caller(s-1)` examined — one Caller-level below `s` — so on a
break at `i` (where `s = i + 1`) the first captured frame is the found frame
`frames[i]` itself, and on the no-break fallback (`s = skip`) capture starts
at `frames[skip - 1]`. The source only ever calls this with `skip = 3`, so
the natural-number truncation of `s - 1` at zero is never reached. -/
def callers (sd : String) (skip : Nat) (depth : Int) (frames : List Frame) : List Nat :=
  ((frames.drop (callersSkip sd frames skip - 1)).take depth.toNat).map Frame.pc

/-- `type Error struct` (src/baseError.go:43): the current revision's record. -/
structure BError : Type where
  Code : String
  Msg : String
  System : Bool
  Chain : List String
  cause : GoErr
  stack : Option (List Nat)
deriving DecidableEq

/-- `err.Error()` called through the `error` interface. A nil interface would
panic; every modelled call site guards against nil first, so the nil branch
is arbitrary. -/
def GoErr.errStr : GoErr → String
  | .nil => ""
  | .base c m _ _ _ => if c ≠ "" then sprintf "[%s] %s" [.str c, .str m] else m
  | .other m => m

/-- `func (b *Error) Error() string` (src/baseError.go:100): bracket the code
when non-empty, else the bare message. -/
def BError.error (b : BError) : String :=
  if b.Code ≠ "" then sprintf "[%s] %s" [.str b.Code, .str b.Msg] else b.Msg

/-- `type ErrorOption struct` (src/baseError.go:142): the option accumulator,
with Go zero values as defaults. -/
structure ErrorOption : Type where
  code : String := ""
  msg : String := ""
  system : Bool := false
  chain : List String := []
  cause : GoErr := .nil
  depth : Int := 0
  msgArgs : List GoVal := []
deriving DecidableEq

/-- `type Option func(*ErrorOption)` as a state transformer. -/
def OptFn : Type := ErrorOption → ErrorOption

/-- `func WithCode(code string) Option` (src/baseError.go:152). -/
def WithCode (code : String) : OptFn := fun o => { o with code := code }

/-- `func WithMsg(msg string) Option` (src/baseError.go:158). -/
def WithMsg (msg : String) : OptFn := fun o => { o with msg := msg }

/-- `func WithMsgFormat(format string, args ...any) Option`
(src/baseError.go:163): formats eagerly into the accumulator's `msg`. -/
def WithMsgFormat (format : String) (args : List GoVal) : OptFn :=
  fun o => { o with msg := sprintf format args }

/-- `func WithMsgArgs(args ...any) Option` (src/baseError.go:169). -/
def WithMsgArgs (args : List GoVal) : OptFn := fun o => { o with msgArgs := args }

/-- `func WithSystem() Option` (src/baseError.go:175). -/
def WithSystem : OptFn := fun o => { o with system := true }

/-- `func WithChain(chain ...string) Option` (src/baseError.go:181). -/
def WithChain (chain : List String) : OptFn := fun o => { o with chain := o.chain ++ chain }

/-- `func WithCause(cause error) Option` (src/baseError.go:187). -/
def WithCause (cause : GoErr) : OptFn := fun o => { o with cause := cause }

/-- `func WithStack(depth ...int) Option` (src/baseError.go:193): default
depth 3, overridden only by a first variadic argument that is `> 0`. -/
def WithStack (depth : List Int) : OptFn := fun o =>
  let d : Int :=
    match depth.head? with
    | some d0 => if d0 > 0 then d0 else 3
    | none => 3
  { o with depth := d }

/-- The loop in `ApplyOption` applying each non-nil option to the fresh
accumulator (src/baseError.go:272). `none` list entries model nil `Option`
values, which are skipped. -/
def accumulate (opts : List (Option OptFn)) : ErrorOption :=
  opts.foldl (fun acc o => match o with | some f => f acc | none => acc) {}

/-- `if errOpt.code != "" { err.Code = errOpt.code }` (src/baseError.go:278). -/
def applyCode (o : ErrorOption) (err : BError) : BError :=
  if o.code ≠ "" then { err with Code := o.code } else err

/-- `if errOpt.msg != "" { err.Msg = errOpt.msg }` (src/baseError.go:281). -/
def applyMsg (o : ErrorOption) (err : BError) : BError :=
  if o.msg ≠ "" then { err with Msg := o.msg } else err

/-- `if errOpt.system { err.System = true }` (src/baseError.go:284). -/
def applySystem (o : ErrorOption) (err : BError) : BError :=
  if o.system then { err with System := true } else err

/-- `if len(errOpt.chain) > 0 { err.Chain = append(err.Chain, errOpt.chain...) }`
(src/baseError.go:287). -/
def applyChain (o : ErrorOption) (err : BError) : BError :=
  if o.chain ≠ [] then { err with Chain := err.Chain ++ o.chain } else err

/-- `if errOpt.cause != nil { err.cause = errOpt.cause }` (src/baseError.go:290). -/
def applyCause (o : ErrorOption) (err : BError) : BError :=
  if o.cause ≠ .nil then { err with cause := o.cause } else err

/-- `if errOpt.depth != 0 { err.stack = callers(3, errOpt.depth) }`
(src/baseError.go:293). -/
def applyStack (rt : Runtime) (o : ErrorOption) (err : BError) : BError :=
  if o.depth ≠ 0 then
    { err with stack := some (callers rt.sourceDir 3 o.depth rt.frames) } else err

/-- `if len(errOpt.msgArgs) > 0 { err.Msg = fmt.Sprintf(err.Msg, errOpt.msgArgs...) }`
(src/baseError.go:296). -/
def applyMsgArgs (o : ErrorOption) (err : BError) : BError :=
  if o.msgArgs ≠ [] then { err with Msg := sprintf err.Msg o.msgArgs } else err

/-- The merge block of `ApplyOption` (src/baseError.go:278-299): the Go
statements in source order. Every field-setting entry of the accumulator is
merged first (including the stack capture), and only the very last statement
formats the now-current message against the message arguments. -/
def mergeOpt (rt : Runtime) (err : BError) (o : ErrorOption) : BError :=
  applyMsgArgs o (applyStack rt o (applyCause o (applyChain o
    (applySystem o (applyMsg o (applyCode o err))))))

/-- `func ApplyOption(err *Error, opts ...Option) *Error`
(src/baseError.go:268): early return on zero options; otherwise accumulate
the options into a fresh `ErrorOption` and merge it once. -/
def ApplyOption (rt : Runtime) (err : BError) (opts : List (Option OptFn)) : BError :=
  match opts with
  | [] => err
  | _ => mergeOpt rt err (accumulate opts)

/-- `func New(msg string, opts ...Option) *Error` (src/baseError.go:203). -/
def New (rt : Runtime) (msg : String) (opts : List (Option OptFn)) : BError :=
  ApplyOption rt ⟨"", msg, false, [], .nil, none⟩ opts

/-- `func NewSystem(msg string, opts ...Option) *Error` (src/baseError.go:208). -/
def NewSystem (rt : Runtime) (msg : String) (opts : List (Option OptFn)) : BError :=
  ApplyOption rt ⟨"", msg, true, [], .nil, none⟩ opts

/-- `func NewCode(code, msg string, opts ...Option) *Error` (src/baseError.go:213). -/
def NewCode (rt : Runtime) (code msg : String) (opts : List (Option OptFn)) : BError :=
  ApplyOption rt ⟨code, msg, false, [], .nil, none⟩ opts

/-- `func NewSystemCode(code, msg string, opts ...Option) *Error`
(src/baseError.go:217). -/
def NewSystemCode (rt : Runtime) (code msg : String) (opts : List (Option OptFn)) : BError :=
  ApplyOption rt ⟨code, msg, true, [], .nil, none⟩ opts

/-- `func NewWrap(err error, opts ...Option) *Error` (src/baseError.go:222):
nil in, nil out; else seed from the wrapped error's text and cause. -/
def NewWrap (rt : Runtime) (err : GoErr) (opts : List (Option OptFn)) : Option BError :=
  match err with
  | .nil => none
  | e => some (ApplyOption rt ⟨"", e.errStr, false, [], e, none⟩ opts)

/-- `func NewSystemWrap(err error, opts ...Option) *Error` (src/baseError.go:230). -/
def NewSystemWrap (rt : Runtime) (err : GoErr) (opts : List (Option OptFn)) : Option BError :=
  match err with
  | .nil => none
  | e => some (ApplyOption rt ⟨"", e.errStr, true, [], e, none⟩ opts)

/-- `func NewCodeWrap(code string, err error, opts ...Option) *Error`
(src/baseError.go:238). -/
def NewCodeWrap (rt : Runtime) (code : String) (err : GoErr)
    (opts : List (Option OptFn)) : Option BError :=
  match err with
  | .nil => none
  | e => some (ApplyOption rt ⟨code, e.errStr, false, [], e, none⟩ opts)

/-- `func NewSystemCodeWrap(code string, err error, opts ...Option) *Error`
(src/baseError.go:246). -/
def NewSystemCodeWrap (rt : Runtime) (code : String) (err : GoErr)
    (opts : List (Option OptFn)) : Option BError :=
  match err with
  | .nil => none
  | e => some (ApplyOption rt ⟨code, e.errStr, true, [], e, none⟩ opts)

/-- `func Clone(err *Error, opts ...Option) *Error` (src/baseError.go:254):
nil in, nil out; else copy `Code`, `Msg`, `System`, `Chain`, `cause` — not
the stack — then apply options. -/
def Clone (rt : Runtime) (err : Option BError) (opts : List (Option OptFn)) : Option BError :=
  match err with
  | none => none
  | some e => some (ApplyOption rt ⟨e.Code, e.Msg, e.System, e.Chain, e.cause, none⟩ opts)

/-- `func (b *Error) WithSystem() *Error` (src/baseError.go:72). -/
def BError.withSystemMut (b : BError) : BError := { b with System := true }

/-- `func (b *Error) WithStack(depth ...int) *Error` (src/baseError.go:87):
same depth defaulting as the option, capturing immediately. -/
def BError.withStackMut (rt : Runtime) (b : BError) (depth : List Int) : BError :=
  let d : Int :=
    match depth.head? with
    | some d0 => if d0 > 0 then d0 else 3
    | none => 3
  { b with stack := some (callers rt.sourceDir 3 d rt.frames) }

/-! ## Earlier revision (src/unnamed/part_000) -/

/-- `type Error struct` of the earlier revision (src/unnamed/part_000:43):
`Chain` is a single joined string there. -/
structure ErrorV0 : Type where
  Code : String
  Msg : String
  System : Bool
  Chain : String
  cause : GoErr
  stack : Option (List Nat)
deriving DecidableEq

/-- `func (b *Error) Error() string` of the earlier revision
(src/unnamed/part_000:80): always brackets the code, even when empty. -/
def ErrorV0.error (b : ErrorV0) : String :=
  sprintf "[%s] %s" [.str b.Code, .str b.Msg]

/-- `type ErrorOption struct` of the earlier revision (src/unnamed/part_000:118). -/
structure ErrorOptionV0 : Type where
  system : Bool := false
  chain : List String := []
  cause : GoErr := .nil
  stackDepth : Int := 0
  formatArgs : List GoVal := []
deriving DecidableEq

/-- `func WithStackDepth(stackDepth int) Option` of the earlier revision
(src/unnamed/part_000:150): a non-positive request is normalized to 1. -/
def WithStackDepthV0 (stackDepth : Int) : ErrorOptionV0 → ErrorOptionV0 := fun o =>
  let sd := if stackDepth ≤ 0 then 1 else stackDepth
  { o with stackDepth := sd }

/-- `func (b *Error) WithStackDepth(stackDepth int) *Error` of the earlier
revision (src/unnamed/part_000:72). -/
def ErrorV0.withStackDepthMut (rt : Runtime) (b : ErrorV0) (stackDepth : Int) : ErrorV0 :=
  let sd := if stackDepth ≤ 0 then 1 else stackDepth
  { b with stack := some (callers rt.sourceDir 3 sd rt.frames) }

/-! ## Field-wise view of the merge, and concrete fixtures for witnesses -/

/-- Field-wise description of the merge block `mergeOpt`: what each field of
the result is, proved equal to `mergeOpt` below. -/
def mergeSpec (rt : Runtime) (err : BError) (o : ErrorOption) : BError where
  Code := if o.code ≠ "" then o.code else err.Code
  Msg := if o.msgArgs ≠ [] then sprintf (if o.msg ≠ "" then o.msg else err.Msg) o.msgArgs
         else if o.msg ≠ "" then o.msg else err.Msg
  System := o.system || err.System
  Chain := if o.chain ≠ [] then err.Chain ++ o.chain else err.Chain
  cause := if o.cause ≠ GoErr.nil then o.cause else err.cause
  stack := if o.depth ≠ 0 then some (callers rt.sourceDir 3 o.depth rt.frames) else err.stack

/-- A call stack of twenty library-internal frames (every file under the
library root, none a test file), program counter `i` at index `i`. -/
def cf20 : List Frame := (List.range 20).map (fun i => ⟨"lib/src/f.go", i⟩)

/-- A call stack whose indices 0-3 are library-internal frames and whose
indices 4-7 belong to the caller's own source. -/
def cfMix : List Frame :=
  [⟨"lib/a.go", 0⟩, ⟨"lib/a.go", 1⟩, ⟨"lib/a.go", 2⟩, ⟨"lib/a.go", 3⟩,
   ⟨"app/m.go", 4⟩, ⟨"app/m.go", 5⟩, ⟨"app/m.go", 6⟩, ⟨"app/m.go", 7⟩]

/-- A concrete runtime: library root `lib/` over the mixed stack `cfMix`. -/
def rtMix : Runtime := ⟨"lib/", cfMix⟩

/-- A concrete error value with empty code and message `raw`. -/
def e0 : BError := ⟨"", "raw", false, [], .nil, none⟩

/-- A concrete fully populated error value, `System` set and a stack present. -/
def eS : BError := ⟨"E", "m", true, ["a"], .other "c", some [9]⟩

/-! ## Helper lemmas -/

theorem applyCode_eq (o : ErrorOption) (e : BError) :
    applyCode o e = { e with Code := if o.code ≠ "" then o.code else e.Code } := by
  unfold applyCode; split <;> rfl

theorem applyMsg_eq (o : ErrorOption) (e : BError) :
    applyMsg o e = { e with Msg := if o.msg ≠ "" then o.msg else e.Msg } := by
  unfold applyMsg; split <;> rfl

theorem applySystem_eq (o : ErrorOption) (e : BError) :
    applySystem o e = { e with System := o.system || e.System } := by
  unfold applySystem; cases h : o.system <;> simp [h]

theorem applyChain_eq (o : ErrorOption) (e : BError) :
    applyChain o e = { e with Chain := if o.chain ≠ [] then e.Chain ++ o.chain else e.Chain } := by
  unfold applyChain; split <;> rfl

theorem applyCause_eq (o : ErrorOption) (e : BError) :
    applyCause o e = { e with cause := if o.cause ≠ .nil then o.cause else e.cause } := by
  unfold applyCause; split <;> rfl

theorem applyStack_eq (rt : Runtime) (o : ErrorOption) (e : BError) :
    applyStack rt o e = { e with stack :=
      (if o.depth ≠ 0 then some (callers rt.sourceDir 3 o.depth rt.frames) else e.stack) } := by
  unfold applyStack; split <;> rfl

theorem applyMsgArgs_eq (o : ErrorOption) (e : BError) :
    applyMsgArgs o e = { e with Msg :=
      (if o.msgArgs ≠ [] then sprintf e.Msg o.msgArgs else e.Msg) } := by
  unfold applyMsgArgs; split <;> rfl

theorem mergeOpt_eq (rt : Runtime) (err : BError) (o : ErrorOption) :
    mergeOpt rt err o = mergeSpec rt err o := by
  unfold mergeOpt
  rw [applyCode_eq, applyMsg_eq, applySystem_eq, applyChain_eq, applyCause_eq,
    applyStack_eq, applyMsgArgs_eq]
  rfl

theorem ApplyOption_cons (rt : Runtime) (err : BError) (f : Option OptFn)
    (l : List (Option OptFn)) :
    ApplyOption rt err (f :: l) = mergeSpec rt err (accumulate (f :: l)) := by
  rw [← mergeOpt_eq]; rfl

theorem sprintf_two_s (c m : String) :
    sprintf "[%s] %s" [.str c, .str m] = "[" ++ c ++ "] " ++ m := by
  show String.singleton '[' ++ (c ++ (String.singleton ']' ++ (String.singleton ' ' ++ (m ++ "")))) =
    "[" ++ c ++ "] " ++ m
  apply String.ext
  simp [String.singleton]

theorem scanGo_none (sd : String) (frames : List Frame) :
    ∀ (fuel i : Nat), (∀ j, i ≤ j → j < i + fuel → okAt sd frames j = false) →
      scanGo sd frames fuel i = none := by
  intro fuel
  induction fuel with
  | zero => intro i h; rfl
  | succ n ih =>
      intro i h
      have h0 : okAt sd frames i = false := h i le_rfl (by omega)
      show scanGo sd frames (n + 1) i = none
      unfold scanGo
      rw [h0]
      simp only [Bool.false_eq_true, if_false]
      exact ih (i + 1) (fun j hj1 hj2 => h j (by omega) (by omega))

theorem scanGo_found (sd : String) (frames : List Frame) :
    ∀ (fuel i k : Nat), i ≤ k → k < i + fuel → okAt sd frames k = true →
      (∀ j, i ≤ j → j < k → okAt sd frames j = false) →
      scanGo sd frames fuel i = some (k + 1) := by
  intro fuel
  induction fuel with
  | zero => intro i k h1 h2 h3 h4; exact absurd h2 (by omega)
  | succ n ih =>
      intro i k h1 h2 h3 h4
      rcases eq_or_lt_of_le h1 with heq | hlt
      · subst heq
        unfold scanGo
        rw [h3]
        simp
      · have h0 : okAt sd frames i = false := h4 i le_rfl hlt
        unfold scanGo
        rw [h0]
        simp only [Bool.false_eq_true, if_false]
        exact ih (i + 1) k (by omega) (by omega) h3 (fun j hj1 hj2 => h4 j (by omega) hj2)

/-! ## The claims -/

/-- C1: `ApplyOption` merges in two phases: every field-setting entry of the
accumulated options (code, message, system, chain, cause, stack depth) is
applied first, and only afterwards is the now-current message formatted as a
template against the supplied message arguments. Hence whenever message
arguments were supplied, the resulting message is the final (possibly
overridden) template formatted against them — in particular with a template
option and an argument option in either order, and likewise through `New`
and `Clone` — never the raw or stale template. -/
theorem applyOption_two_phase (rt : Runtime) (e : BError) (opts : List (Option OptFn))
    (t : String) (args : List GoVal) :
    ((accumulate opts).msgArgs ≠ [] →
      (ApplyOption rt e opts).Msg =
        sprintf (if (accumulate opts).msg ≠ "" then (accumulate opts).msg else e.Msg)
          (accumulate opts).msgArgs) ∧
    (t ≠ "" → args ≠ [] →
      (ApplyOption rt e [some (WithMsg t), some (WithMsgArgs args)]).Msg = sprintf t args ∧
      (ApplyOption rt e [some (WithMsgArgs args), some (WithMsg t)]).Msg = sprintf t args ∧
      (New rt "stale" [some (WithMsg t), some (WithMsgArgs args)]).Msg = sprintf t args ∧
      (Clone rt (some e) [some (WithMsg t), some (WithMsgArgs args)]).map BError.Msg =
        some (sprintf t args)) := by
  constructor
  · intro h
    cases opts with
    | nil => exact absurd rfl h
    | cons f l =>
        rw [ApplyOption_cons]
        simp [mergeSpec, h]
  · intro ht ha
    have hacc : accumulate [some (WithMsg t), some (WithMsgArgs args)] =
        { msg := t, msgArgs := args } := rfl
    have hacc2 : accumulate [some (WithMsgArgs args), some (WithMsg t)] =
        { msg := t, msgArgs := args } := rfl
    refine ⟨?_, ?_, ?_, ?_⟩
    · rw [ApplyOption_cons, hacc]; simp [mergeSpec, ht, ha]
    · rw [ApplyOption_cons, hacc2]; simp [mergeSpec, ht, ha]
    · show (ApplyOption rt ⟨"", "stale", false, [], .nil, none⟩
        [some (WithMsg t), some (WithMsgArgs args)]).Msg = sprintf t args
      rw [ApplyOption_cons, hacc]; simp [mergeSpec, ht, ha]
    · show (some (ApplyOption rt ⟨e.Code, e.Msg, e.System, e.Chain, e.cause, none⟩
        [some (WithMsg t), some (WithMsgArgs args)])).map BError.Msg = some (sprintf t args)
      rw [ApplyOption_cons, hacc]; simp [mergeSpec, ht, ha]

theorem applyOption_two_phase_witness :
    (ApplyOption rtMix e0 [some (WithMsg "%d-%s"),
        some (WithMsgArgs [.int 7, .str "x"])]).Msg = "7-x" ∧
    (ApplyOption rtMix e0 [some (WithMsgArgs [.int 7, .str "x"]),
        some (WithMsg "%d-%s")]).Msg = "7-x" ∧
    (ApplyOption rtMix e0 [some (WithMsgArgs [.int 7, .str "x"])]).Msg = "raw%!(EXTRA)" := by
  have h := (applyOption_two_phase rtMix e0 [] "%d-%s" [.int 7, .str "x"]).2
    (by decide) (by decide)
  have h1 := (applyOption_two_phase rtMix e0 [some (WithMsgArgs [.int 7, .str "x"])]
    "%d-%s" [.int 7, .str "x"]).1 (by decide)
  exact ⟨h.1.trans (by decide), h.2.1.trans (by decide), h1.trans (by decide)⟩

/-- C2 (counterexample): as literally stated the claim quantifies over every
option list, but an option can override the seeded message and cause:
`NewWrap` of the error rendering `boom` together with a message option `x`
yields message `x`, not `boom`, and a cause option likewise replaces the
wrapped error as cause. -/
theorem newWrap_override_cex :
    (NewWrap rtMix (.other "boom") [some (WithMsg "x")]).map BError.Msg = some "x" ∧
    (GoErr.other "boom").errStr = "boom" ∧ ("x" : String) ≠ "boom" ∧
    (NewWrap rtMix (.other "boom") [some (WithCause (.other "c2"))]).map BError.cause =
      some (.other "c2") ∧ GoErr.other "c2" ≠ GoErr.other "boom" := by decide

/-- C2 (amended): every wrapping constructor returns `none` on a nil
underlying error for every option list, fabricating no value; on a present
underlying error it seeds the new value with message `err.Error()` and cause
`err` before options are applied — so with an empty option list the result's
message is the wrapped error's rendered text and its cause is that error
(supplied options may override either). -/
theorem wrap_nil_guard_and_seed (rt : Runtime) (code : String)
    (opts : List (Option OptFn)) :
    NewWrap rt .nil opts = none ∧ NewSystemWrap rt .nil opts = none ∧
    NewCodeWrap rt code .nil opts = none ∧ NewSystemCodeWrap rt code .nil opts = none ∧
    ∀ err : GoErr, err ≠ .nil →
      NewWrap rt err [] = some ⟨"", err.errStr, false, [], err, none⟩ ∧
      NewSystemWrap rt err [] = some ⟨"", err.errStr, true, [], err, none⟩ ∧
      NewCodeWrap rt code err [] = some ⟨code, err.errStr, false, [], err, none⟩ ∧
      NewSystemCodeWrap rt code err [] = some ⟨code, err.errStr, true, [], err, none⟩ := by
  refine ⟨rfl, rfl, rfl, rfl, ?_⟩
  intro err he
  cases err with
  | nil => exact absurd rfl he
  | base c m s ch ca => exact ⟨rfl, rfl, rfl, rfl⟩
  | other m => exact ⟨rfl, rfl, rfl, rfl⟩

theorem wrap_nil_guard_and_seed_witness :
    NewWrap rtMix (.other "boom") [] =
      some ⟨"", "boom", false, [], .other "boom", none⟩ ∧
    NewSystemCodeWrap rtMix "C" (.base "B" "m" false [] .nil) [] =
      some ⟨"C", "[B] m", true, [], .base "B" "m" false [] .nil, none⟩ := by
  have h := (wrap_nil_guard_and_seed rtMix "C" []).2.2.2.2 (.other "boom") (by decide)
  have h2 := (wrap_nil_guard_and_seed rtMix "C" []).2.2.2.2
    (.base "B" "m" false [] .nil) (by decide)
  exact ⟨h.1.trans (by decide), h2.2.2.2.trans (by decide)⟩

/-- C3: `Clone` of a non-nil value copies `Code`, `Msg`, `System`, `Chain`
and `cause` exactly and does not copy the source's stack snapshot: with no
options the clone's stack is `none`, it stays `none` under any option list
that requests no stack capture, and a stack-capture request in the clone's
own option list populates it with a fresh capture. -/
theorem clone_copies_fields_resets_stack (rt : Runtime) (e : BError)
    (opts : List (Option OptFn)) :
    Clone rt (some e) [] = some ⟨e.Code, e.Msg, e.System, e.Chain, e.cause, none⟩ ∧
    ((accumulate opts).depth = 0 → (Clone rt (some e) opts).map BError.stack = some none) ∧
    ((accumulate opts).depth ≠ 0 → (Clone rt (some e) opts).map BError.stack =
        some (some (callers rt.sourceDir 3 (accumulate opts).depth rt.frames))) := by
  refine ⟨rfl, ?_, ?_⟩
  · intro h
    cases opts with
    | nil => rfl
    | cons f l =>
        show (some (ApplyOption rt ⟨e.Code, e.Msg, e.System, e.Chain, e.cause, none⟩
          (f :: l))).map BError.stack = some none
        rw [ApplyOption_cons]
        simp [mergeSpec, h]
  · intro h
    cases opts with
    | nil => exact absurd rfl h
    | cons f l =>
        show (some (ApplyOption rt ⟨e.Code, e.Msg, e.System, e.Chain, e.cause, none⟩
          (f :: l))).map BError.stack =
          some (some (callers rt.sourceDir 3 (accumulate (f :: l)).depth rt.frames))
        rw [ApplyOption_cons]
        simp [mergeSpec, h]

theorem clone_copies_fields_resets_stack_witness :
    Clone rtMix (some eS) [] = some ⟨"E", "m", true, ["a"], .other "c", none⟩ ∧
    (Clone rtMix (some eS) [some (WithChain ["w"])]).map BError.stack = some none ∧
    (Clone rtMix (some eS) [some (WithStack [])]).map BError.stack =
      some (some [4, 5, 6]) := by
  have h := clone_copies_fields_resets_stack rtMix eS [some (WithChain ["w"])]
  have h2 := clone_copies_fields_resets_stack rtMix eS [some (WithStack [])]
  exact ⟨h.1, h.2.1 (by decide), (h2.2.2 (by decide)).trans (by decide)⟩

/-- C4: `ApplyOption` leaves every field not targeted by the supplied options
unchanged — a field whose accumulator entry is still its zero value is never
cleared or altered — and applying zero options returns the input unchanged
(the merge, and with it any stack capture, is skipped entirely). -/
theorem applyOption_frame_rule (rt : Runtime) (e : BError)
    (opts : List (Option OptFn)) :
    ApplyOption rt e [] = e ∧
    ((accumulate opts).code = "" → (ApplyOption rt e opts).Code = e.Code) ∧
    ((accumulate opts).msg = "" → (accumulate opts).msgArgs = [] →
      (ApplyOption rt e opts).Msg = e.Msg) ∧
    ((accumulate opts).system = false → (ApplyOption rt e opts).System = e.System) ∧
    ((accumulate opts).chain = [] → (ApplyOption rt e opts).Chain = e.Chain) ∧
    ((accumulate opts).cause = .nil → (ApplyOption rt e opts).cause = e.cause) ∧
    ((accumulate opts).depth = 0 → (ApplyOption rt e opts).stack = e.stack) := by
  refine ⟨rfl, ?_, ?_, ?_, ?_, ?_, ?_⟩ <;> cases opts with
  | nil => intros; rfl
  | cons f l =>
      intro h
      try intro h2
      rw [ApplyOption_cons]
      simp_all [mergeSpec]

theorem applyOption_frame_rule_witness :
    ApplyOption rtMix eS [] = eS ∧
    (ApplyOption rtMix eS [some (fun o => o)]).Code = eS.Code ∧
    (ApplyOption rtMix eS [some (fun o => o)]).Msg = eS.Msg ∧
    (ApplyOption rtMix eS [some (fun o => o)]).System = eS.System ∧
    (ApplyOption rtMix eS [some (fun o => o)]).Chain = eS.Chain ∧
    (ApplyOption rtMix eS [some (fun o => o)]).cause = eS.cause ∧
    (ApplyOption rtMix eS [some (fun o => o)]).stack = eS.stack := by
  have h := applyOption_frame_rule rtMix eS [some (fun o => o)]
  exact ⟨h.1, h.2.1 rfl, h.2.2.1 rfl rfl, h.2.2.2.1 rfl, h.2.2.2.2.1 rfl,
    h.2.2.2.2.2.1 rfl, h.2.2.2.2.2.2 rfl⟩

/-- C5 (counterexample): when no frame within the scan bound of 15 is a
caller frame, `callers` keeps `s` at the requested skip — so the capture
begins at Caller-level 2, one below the scan's first examined position 3 —
not at the scan's last examined position (14 or 15), and over a deep
all-library stack it returns a full-depth trace of library frames, neither
empty nor partial. -/
theorem callers_fallback_cex :
    callersSkip "lib/" cf20 3 = 3 ∧
    callersSkip "lib/" cf20 3 ≠ 14 ∧ callersSkip "lib/" cf20 3 ≠ 15 ∧
    callers "lib/" 3 3 cf20 = [2, 3, 4] ∧
    (callers "lib/" 3 3 cf20).length = 3 ∧
    callers "lib/" 3 3 cf20 ≠ [] := by decide

/-- C5 (amended): if no index in the scanned window `[skip, 15)` holds an
existing frame satisfying "not a library frame (or a test file)", the scan
keeps the requested `skip` and the capture proceeds without failing from
`runtime.Callers(skip, …)` — one Caller-level below the scan's first
examined position; if some index `k` does, `s` becomes `k + 1` and the
capture starts at the found frame `frames[k]` itself, which becomes the
trace's first entry. -/
theorem callers_boundary (sd : String) (frames : List Frame) (skip : Nat)
    (depth : Int) :
    ((∀ j, skip ≤ j → j < 15 → okAt sd frames j = false) →
      callers sd skip depth frames =
        ((frames.drop (skip - 1)).take depth.toNat).map Frame.pc) ∧
    (∀ k, skip ≤ k → k < 15 → okAt sd frames k = true →
      (∀ j, skip ≤ j → j < k → okAt sd frames j = false) →
      callers sd skip depth frames =
        ((frames.drop k).take depth.toNat).map Frame.pc) := by
  constructor
  · intro h
    have hs : scanLoop sd frames skip = none :=
      scanGo_none sd frames (15 - skip) skip (fun j hj1 hj2 => h j hj1 (by omega))
    unfold callers callersSkip
    rw [hs]
    rfl
  · intro k h1 h2 h3 h4
    have hs : scanLoop sd frames skip = some (k + 1) :=
      scanGo_found sd frames (15 - skip) skip k h1 (by omega) h3 h4
    unfold callers callersSkip
    rw [hs]
    rfl

theorem callers_boundary_witness :
    callers "lib/" 3 3 cf20 = ((cf20.drop 2).take (3 : Int).toNat).map Frame.pc ∧
    callers "lib/" 3 3 cfMix = ((cfMix.drop 4).take (3 : Int).toNat).map Frame.pc := by
  constructor
  · exact (callers_boundary "lib/" cf20 3 3).1
      (by intro j h1 h2; interval_cases j <;> decide)
  · exact (callers_boundary "lib/" cfMix 3 3).2 4 (by omega) (by omega) (by decide)
      (by intro j h1 h2; interval_cases j; decide)

/-- C6 (counterexample): in the current revision the stack-capture option
and mutator map a non-positive requested depth to the default 3, not to 1:
`WithStack(0)` stores depth 3, and the mutator with a `0` request captures
three frames where a normalize-to-1 behaviour would capture one. -/
theorem withStack_depth_zero_cex :
    (WithStack [0] {}).depth = 3 ∧ (WithStack [0] {}).depth ≠ 1 ∧
    (BError.withStackMut rtMix e0 [0]).stack = some [4, 5, 6] ∧
    (BError.withStackMut rtMix e0 [0]).stack ≠ some [4] := by decide

/-- C6 (amended): in the current revision (`WithStack` option and mutator) a
requested depth `d ≤ 0` — like an absent one — falls back to the default 3,
a positive request is kept, so the stored depth is always at least 1 and a
request never yields a zero-length snapshot; the earlier revision's
`WithStackDepth` is the one that normalizes `d ≤ 0` to exactly 1. -/
theorem stack_depth_normalization (o : ErrorOption) (ov : ErrorOptionV0)
    (ds : List Int) (d0 : Int) (rt : Runtime) (b : BError) :
    1 ≤ (WithStack ds o).depth ∧
    (ds.head? = none → (WithStack ds o).depth = 3) ∧
    (ds.head? = some d0 → d0 ≤ 0 → (WithStack ds o).depth = 3) ∧
    (ds.head? = some d0 → 0 < d0 → (WithStack ds o).depth = d0) ∧
    (d0 ≤ 0 → (WithStackDepthV0 d0 ov).stackDepth = 1) ∧
    BError.withStackMut rt b ds =
      { b with stack := some (callers rt.sourceDir 3 (WithStack ds o).depth rt.frames) } := by
  refine ⟨?_, ?_, ?_, ?_, ?_, ?_⟩
  · unfold WithStack
    cases ds with
    | nil => norm_num
    | cons d tl =>
        simp only [List.head?]
        split
        all_goals omega
  · intro h
    cases ds with
    | nil => rfl
    | cons d tl => simp at h
  · intro h1 h2
    cases ds with
    | nil => rfl
    | cons d tl =>
        simp only [List.head?, Option.some.injEq] at h1
        subst h1
        unfold WithStack
        simp only [List.head?]
        rw [if_neg (by omega)]
  · intro h1 h2
    cases ds with
    | nil => simp at h1
    | cons d tl =>
        simp only [List.head?, Option.some.injEq] at h1
        subst h1
        unfold WithStack
        simp only [List.head?]
        rw [if_pos h2]
  · intro h
    unfold WithStackDepthV0
    simp only []
    rw [if_pos h]
  · unfold BError.withStackMut WithStack
    cases ds with
    | nil => rfl
    | cons d tl => simp only [List.head?]

theorem stack_depth_normalization_witness :
    (WithStack ([] : List Int) {}).depth = 3 ∧
    (WithStack [-2] {}).depth = 3 ∧
    (WithStack [5] {}).depth = 5 ∧
    1 ≤ (WithStack [7] {}).depth ∧
    (WithStackDepthV0 (-1) {}).stackDepth = 1 ∧
    BError.withStackMut rtMix e0 [] = { e0 with stack := some [4, 5, 6] } := by
  have ha := stack_depth_normalization {} {} ([] : List Int) (-1) rtMix e0
  have hb := stack_depth_normalization {} {} [-2] (-2) rtMix e0
  have hc := stack_depth_normalization {} {} [5] (5 : Int) rtMix e0
  have hd := stack_depth_normalization {} {} [7] (7 : Int) rtMix e0
  refine ⟨ha.2.1 rfl, hb.2.2.1 rfl (by norm_num), hc.2.2.2.1 rfl (by norm_num),
    hd.1, ha.2.2.2.2.1 (by norm_num), (ha.2.2.2.2.2).trans (by decide)⟩

/-- C7 (counterexample): the rendering of the earlier revision
(src/unnamed/part_000) always brackets the code, so with an empty code and
message `plain` it renders `[] plain`, not `plain` as the claim states for
every Error Value. -/
theorem errorV0_empty_code_cex :
    ErrorV0.error ⟨"", "plain", false, "", .nil, none⟩ = "[] plain" ∧
    ("[] plain" : String) ≠ "plain" := by decide

/-- C7 (amended): in the current revision (src/baseError.go) the short form
is `[code] message` when the code is non-empty and the bare message when the
code is empty — `NewCode "E1" "boom"` renders `[E1] boom`, `New "plain"`
renders `plain` — while the earlier revision (src/unnamed/part_000) always
brackets, rendering `[] message` for an empty code. -/
theorem shortform_rendering (b : BError) (v : ErrorV0) (rt : Runtime) :
    (b.Code ≠ "" → b.error = "[" ++ b.Code ++ "] " ++ b.Msg) ∧
    (b.Code = "" → b.error = b.Msg) ∧
    v.error = "[" ++ v.Code ++ "] " ++ v.Msg ∧
    (New rt "plain" []).error = "plain" ∧
    (NewCode rt "E1" "boom" []).error = "[E1] boom" := by
  refine ⟨?_, ?_, ?_, ?_, ?_⟩
  · intro h
    unfold BError.error
    rw [if_pos h]
    exact sprintf_two_s b.Code b.Msg
  · intro h
    unfold BError.error
    simp [h]
  · unfold ErrorV0.error
    exact sprintf_two_s v.Code v.Msg
  · rfl
  · show sprintf "[%s] %s" [.str "E1", .str "boom"] = "[E1] boom"
    decide

theorem shortform_rendering_witness :
    BError.error ⟨"E1", "boom", false, [], .nil, none⟩ = "[E1] boom" ∧
    BError.error ⟨"", "plain", false, [], .nil, none⟩ = "plain" := by
  have h := shortform_rendering ⟨"E1", "boom", false, [], .nil, none⟩
    ⟨"", "", false, "", .nil, none⟩ rtMix
  have h2 := shortform_rendering ⟨"", "plain", false, [], .nil, none⟩
    ⟨"", "", false, "", .nil, none⟩ rtMix
  exact ⟨(h.1 (by decide)).trans (by decide), h2.2.1 rfl⟩

/-- C8: the `System` flag is monotone — once an Error Value's system flag is
true, no options merge (`ApplyOption` only ever sets it to true), no
`WithSystem` mutation, and no `Clone` with any option list resets it to
false. -/
theorem system_flag_monotone (rt : Runtime) (e : BError)
    (opts : List (Option OptFn)) (h : e.System = true) :
    (ApplyOption rt e opts).System = true ∧
    (BError.withSystemMut e).System = true ∧
    (Clone rt (some e) opts).map BError.System = some true := by
  refine ⟨?_, rfl, ?_⟩
  · cases opts with
    | nil => exact h
    | cons f l =>
        rw [ApplyOption_cons]
        simp [mergeSpec, h]
  · cases opts with
    | nil => simp [Clone, ApplyOption, h]
    | cons f l =>
        show (some (ApplyOption rt ⟨e.Code, e.Msg, e.System, e.Chain, e.cause, none⟩
          (f :: l))).map BError.System = some true
        rw [ApplyOption_cons]
        simp [mergeSpec, h]

theorem system_flag_monotone_witness :
    (ApplyOption rtMix eS [some (fun o => { o with system := false })]).System = true ∧
    (BError.withSystemMut eS).System = true ∧
    (Clone rtMix (some eS) [some (WithChain ["w"])]).map BError.System = some true := by
  have h := system_flag_monotone rtMix eS
    [some (fun o => { o with system := false })] (by decide)
  have h2 := system_flag_monotone rtMix eS [some (WithChain ["w"])] (by decide)
  exact ⟨h.1, h.2.1, h2.2.2⟩

/-- C9: over non-nil error values (the nil case panics, see the claim about
nil inputs), `IsSystemError` and `IsNotSystemError` are mutually exclusive;
over structured errors (`IsBaseError` true) exactly one of them returns
true; and for a non-structured error both return false. -/
theorem fault_predicates_partition (err : GoErr) (h : err ≠ .nil) :
    ¬(IsSystemError err = some true ∧ IsNotSystemError err = some true) ∧
    (IsBaseError err = some true →
      (IsSystemError err = some true ∧ IsNotSystemError err = some false) ∨
      (IsSystemError err = some false ∧ IsNotSystemError err = some true)) ∧
    (IsBaseError err = some false →
      IsSystemError err = some false ∧ IsNotSystemError err = some false) := by
  cases err with
  | nil => exact absurd rfl h
  | base c m s ch ca =>
      cases s <;>
        simp [IsBaseError, IsSystemError, IsNotSystemError, reflectTypeString,
          GoErr.systemFlag]
  | other m =>
      simp [IsBaseError, IsSystemError, IsNotSystemError, reflectTypeString,
        GoErr.systemFlag]

theorem fault_predicates_partition_witness :
    ¬(IsSystemError (.base "c" "m" true [] .nil) = some true ∧
      IsNotSystemError (.base "c" "m" true [] .nil) = some true) ∧
    (IsSystemError (.other "x") = some false ∧
      IsNotSystemError (.other "x") = some false) := by
  have h := fault_predicates_partition (.base "c" "m" true [] .nil) (by decide)
  have h2 := fault_predicates_partition (.other "x") (by decide)
  exact ⟨h.1, h2.2.2 (by decide)⟩

/-- C10: on a nil error input each of `IsBaseError`, `IsSystemError` and
`IsNotSystemError` panics (modelled as `none`): `reflect.TypeOf` of a nil
interface is the nil `Type`, and invoking `String()` on it faults before any
boolean could be returned — in particular none of them returns `false`. -/
theorem predicates_panic_on_nil :
    IsBaseError .nil = none ∧ IsSystemError .nil = none ∧
    IsNotSystemError .nil = none ∧
    IsBaseError .nil ≠ some false ∧ IsSystemError .nil ≠ some false ∧
    IsNotSystemError .nil ≠ some false := by decide
